import Mathlib

/-!
Verification of the discussion-state reconciliation engine and progress relay
of the GitLab Claude Code integration: trigger detection (`isValidTrigger`),
comment categorization (`categorizeComments`), duplicate-response suppression
(`checkTrigger`), reply creation (`createReply`), CI environment parsing
(`parseGitLabContext`) and the comment-update relay (`watchForUpdates`).

All definitions are shallow embeddings of the TypeScript source:
strings are Lean `String`s, JS `undefined`-able fields are `Option`s,
the JS number `NaN` is `none`, and truthiness of a string is non-emptiness.
-/

/- ### String helpers (JS semantics) -/

/-- JS `s.toLowerCase()` (character-wise lowercasing). -/
def lowerStr (s : String) : String := ⟨s.data.map Char.toLower⟩

/-- Substring search on character lists: `containsSub pat l` is true iff `pat`
occurs contiguously inside `l`.  Executable counterpart of JS `includes`. -/
def containsSub (pat : List Char) : List Char → Bool
  | [] => pat.isEmpty
  | c :: rest => pat.isPrefixOf (c :: rest) || containsSub pat rest

/-- `isValidTrigger` from `context.ts`:
`text.toLowerCase().includes(context.triggerPhrase.toLowerCase())`.
The trigger phrase is passed directly instead of through the context record. -/
def isValidTrigger (text : String) (triggerPhrase : String) : Bool :=
  containsSub (lowerStr triggerPhrase).data (lowerStr text).data

/-- JS truthiness of an optional string: `undefined` and `""` are falsy. -/
def truthyStr : Option String → Bool
  | none => false
  | some s => !s.isEmpty

/-- JS `x || d` where `x` is an optional string environment value. -/
def jsOr (a : Option String) (d : String) : String :=
  match a with
  | some s => if s.isEmpty then d else s
  | none => d

/- ### Note model

`GitLabNote` declares `author` and `body` as always present, but
`categorizeComments`/`checkTrigger` defensively re-check them
(`note.author && typeof note.author === 'object' && ...`, `note.body && ...`),
so the embedding keeps both fields optional.  `author` is the author's
`username` when `note.author` is an object carrying a string username;
`none` models a missing/malformed author. -/

structure Note where
  id : Int
  author : Option String
  body : Option String
  deriving Repr, DecidableEq

/-- `GitLabDiscussion`; `resolved` is the value of `discussion.resolved || false`. -/
structure Discussion where
  id : String
  notes : List Note
  resolved : Bool
  deriving Repr, DecidableEq

/-- The regex `/claude[- ]?bot/i`: the username matches iff its lowercase form
contains `"claudebot"`, `"claude-bot"` or `"claude bot"` as a substring. -/
def claudeBotMatches (u : String) : Bool :=
  containsSub "claudebot".data (lowerStr u).data ||
  containsSub "claude-bot".data (lowerStr u).data ||
  containsSub "claude bot".data (lowerStr u).data

/-- The agent-identity test applied to a note in `api.ts`:
`note.author && typeof note.author === 'object' && 'username' in note.author &&
typeof note.author.username === 'string' && claudeBotPattern.test(username)`. -/
def isClaudeNote (n : Note) : Bool :=
  match n.author with
  | some u => claudeBotMatches u
  | none => false

/-- The trigger test applied to a note in `api.ts`:
`note.body && isValidTrigger(note.body, context)` (an absent or empty body is
falsy, so the trigger check is skipped for it). -/
def noteIsTrigger (triggerPhrase : String) (n : Note) : Bool :=
  match n.body with
  | some b => !b.isEmpty && isValidTrigger b triggerPhrase
  | none => false

/- ### checkTrigger (api.ts) -/

structure TriggerComment where
  note : Note
  discussionId : String
  hasClaudeReply : Bool
  deriving Repr, DecidableEq

structure TriggerCheckResult where
  shouldRun : Bool
  reason : String
  triggerType : Option String
  triggerComments : List TriggerComment
  hasExistingResponse : Bool
  deriving Repr, DecidableEq

/-- Whether any note of the discussion is authored by the agent identity
(the `hasClaudeReply` flag computed by the per-discussion loop of
`checkTrigger`). -/
def discussionHasClaudeReply (d : Discussion) : Bool :=
  d.notes.any isClaudeNote

/-- The `triggerNotesInDiscussion` list of `checkTrigger`: the notes of the
discussion satisfying the trigger test, in order. -/
def discussionTriggerNotes (triggerPhrase : String) (d : Discussion) : List Note :=
  d.notes.filter (noteIsTrigger triggerPhrase)

/-- The `triggerComments` array accumulated by `checkTrigger` over all
discussions: each trigger note paired with its discussion id and the
discussion-scoped `hasClaudeReply` flag. -/
def collectTriggerComments (triggerPhrase : String) (ds : List Discussion) :
    List TriggerComment :=
  ds.flatMap fun d =>
    (discussionTriggerNotes triggerPhrase d).map fun n =>
      { note := n, discussionId := d.id,
        hasClaudeReply := discussionHasClaudeReply d }

/-- `const newTriggers = triggerComments.filter(t => !t.hasClaudeReply)`. -/
def newTriggers (triggerPhrase : String) (ds : List Discussion) :
    List TriggerComment :=
  (collectTriggerComments triggerPhrase ds).filter fun t => !t.hasClaudeReply

/-- Assignee usernames and labels of the MR/issue, consumed by the
assignment-trigger and label-trigger branches of `checkTrigger`. -/
structure EntityInfo where
  assigneeUsernames : List String
  labels : List String
  deriving Repr, DecidableEq

/-- The decision logic of `checkTrigger` (`api.ts`), on already-fetched data:
comment triggers first, then assignment (MR only), then the `claude` label,
else no trigger. -/
def checkTrigger (triggerPhrase : String) (isMR : Bool) (entity : EntityInfo)
    (ds : List Discussion) : TriggerCheckResult :=
  if (newTriggers triggerPhrase ds).length > 0 then
    { shouldRun := true
      reason := "Found " ++ toString (newTriggers triggerPhrase ds).length ++
        " new trigger comment(s) without Claude replies"
      triggerType := some "comment"
      triggerComments := newTriggers triggerPhrase ds
      hasExistingResponse :=
        (collectTriggerComments triggerPhrase ds).any fun t => t.hasClaudeReply }
  else if (collectTriggerComments triggerPhrase ds).length > 0 then
    { shouldRun := false
      reason := "All trigger comments already have Claude replies"
      triggerType := some "comment"
      triggerComments := []
      hasExistingResponse := true }
  else if isMR = true ∧ "claude-bot" ∈ entity.assigneeUsernames then
    { shouldRun := true
      reason := "Claude bot is assigned"
      triggerType := some "assignment"
      triggerComments := []
      hasExistingResponse := false }
  else if "claude" ∈ entity.labels then
    { shouldRun := true
      reason := "Found claude label"
      triggerType := some "label"
      triggerComments := []
      hasExistingResponse := false }
  else
    { shouldRun := false
      reason := "No trigger found"
      triggerType := none
      triggerComments := []
      hasExistingResponse := false }

/- ### categorizeComments (api.ts) -/

structure CategorizedComments where
  triggerComments : List Note
  contextComments : List Note
  resolvedComments : List Note
  claudeReplies : List Note
  deriving Repr, DecidableEq

/-- One step of the second pass of `categorizeComments`: skip the agent's own
notes; triggers go to `triggerComments`; otherwise the discussion's resolution
state decides between `resolvedComments` and `contextComments`. -/
def classifyNote (p : String) (isResolved : Bool)
    (acc : CategorizedComments) (n : Note) : CategorizedComments :=
  if isClaudeNote n then acc
  else if noteIsTrigger p n then
    { acc with triggerComments := acc.triggerComments ++ [n] }
  else if isResolved then
    { acc with resolvedComments := acc.resolvedComments ++ [n] }
  else
    { acc with contextComments := acc.contextComments ++ [n] }

/-- Both passes of `categorizeComments` over one discussion: the first pass
collects the agent-authored notes into `claudeReplies`, the second pass
classifies every note via `classifyNote`. -/
def categorizeDiscussion (p : String) (acc : CategorizedComments)
    (d : Discussion) : CategorizedComments :=
  let acc1 := { acc with
    claudeReplies := acc.claudeReplies ++ d.notes.filter isClaudeNote }
  d.notes.foldl (classifyNote p d.resolved) acc1

/-- `categorizeComments` from `api.ts`: iterate over all discussions,
accumulating the four note categories. -/
def categorizeComments (p : String) (ds : List Discussion) : CategorizedComments :=
  ds.foldl (categorizeDiscussion p) ⟨[], [], [], []⟩

/-- All notes of all discussions, in traversal order. -/
def allNotes (ds : List Discussion) : List Note := ds.flatMap Discussion.notes

/-- All notes of all discussions, each paired with the resolution state of its
containing discussion. -/
def notePairs (ds : List Discussion) : List (Note × Bool) :=
  ds.flatMap fun d => d.notes.map fun n => (n, d.resolved)

/- ### Concrete inputs used by counterexamples and witnesses -/

def noteTrigUser : Note := { id := 1, author := some "alice", body := some "@claude please fix" }

def noteClaudeReply : Note := { id := 2, author := some "claude-bot", body := some "Done." }

def noteTrigUser2 : Note := { id := 3, author := some "bob", body := some "hey @claude look" }

def discAnswered : Discussion :=
  { id := "d1", notes := [noteTrigUser, noteClaudeReply], resolved := false }

def discUnanswered : Discussion :=
  { id := "d2", notes := [noteTrigUser2], resolved := false }

def emptyEntity : EntityInfo := { assigneeUsernames := [], labels := [] }

def noteNoAuthor : Note := { id := 4, author := none, body := some "@claude fix this" }

def discMalformed : Discussion := { id := "d3", notes := [noteNoAuthor], resolved := false }

def discResolvedTrig : Discussion := { id := "d4", notes := [noteTrigUser], resolved := true }

/- ### createReply (api.ts) -/

/-- The note-creation request issued to the host.  `topLevel` corresponds to
`MergeRequestNotes.create` / `IssueNotes.create` (a new top-level note on the
MR/issue); `discussionNote` would correspond to the discussion-reply endpoint,
which `createReply` never uses. -/
inductive NoteRequest where
  | topLevel (iid : Int) (body : String)
  | discussionNote (discussionId : String) (body : String)
  deriving Repr, DecidableEq

structure CreateReplyParams where
  projectId : String
  isMR : Bool
  iid : Int
  discussionId : String
  noteId : Int
  body : String
  deriving Repr, DecidableEq

/-- `createReply` from `api.ts`: builds
`"> In reply to discussion ${params.discussionId}\n\n${params.body}"` and
creates a top-level note with it (`MergeRequestNotes.create` for MRs,
`IssueNotes.create` for issues). -/
def createReply (params : CreateReplyParams) : NoteRequest :=
  let replyBody :=
    "> In reply to discussion " ++ params.discussionId ++ "\n\n" ++ params.body
  if params.isMR then
    NoteRequest.topLevel params.iid replyBody
  else
    NoteRequest.topLevel params.iid replyBody

/- ### parseGitLabContext (context.ts) -/

/-- The CI environment variables read by `parseGitLabContext`; `none` models an
unset variable. -/
structure GitLabEnv where
  CI_MERGE_REQUEST_IID : Option String := none
  CI_ISSUE_IID : Option String := none
  GITLAB_TOKEN : Option String := none
  CLAUDE_BOT_TOKEN : Option String := none
  CI_JOB_TOKEN : Option String := none
  CI_PROJECT_ID : Option String := none
  CI_PROJECT_PATH : Option String := none
  CI_PROJECT_URL : Option String := none
  GITLAB_USER_LOGIN : Option String := none
  CI_COMMIT_AUTHOR : Option String := none
  CLAUDE_TRIGGER_PHRASE : Option String := none
  CI_DEFAULT_BRANCH : Option String := none
  CI_MERGE_REQUEST_SOURCE_BRANCH_NAME : Option String := none
  CI_MERGE_REQUEST_TARGET_BRANCH_NAME : Option String := none
  CI_JOB_ID : Option String := none
  CI_JOB_URL : Option String := none
  CI_PIPELINE_ID : Option String := none
  CI_PIPELINE_URL : Option String := none
  CI_API_V4_URL : Option String := none
  deriving Repr, DecidableEq

/-- The longest prefix of decimal digits as a number; `none` when there is no
leading digit. -/
def parseDigits (cs : List Char) : Option Nat :=
  let ds := cs.takeWhile Char.isDigit
  if ds.isEmpty then none
  else some (ds.foldl (fun acc c => 10 * acc + (c.toNat - '0'.toNat)) 0)

/-- JS `parseInt(s)` in base 10: skip leading whitespace, read an optional
sign, then the longest prefix of decimal digits; the result is `NaN`
(modelled as `none`) when no digit follows. -/
def parseIntJS (s : String) : Option Int :=
  let cs := s.data.dropWhile fun c => c = ' ' || c = '\t' || c = '\n' || c = '\r'
  match cs with
  | '-' :: rest => (parseDigits rest).map fun n => -(n : Int)
  | '+' :: rest => (parseDigits rest).map fun n => (n : Int)
  | _ => (parseDigits cs).map fun n => (n : Int)

/-- `GitLabContext` built by `parseGitLabContext`; `iid : Option Int` models a
JS number where `none` is `NaN`. -/
structure GitLabContext where
  projectId : String
  projectPath : String
  projectUrl : String
  webUrl : String
  isMR : Bool
  iid : Option Int
  triggerUser : String
  triggerUsername : String
  triggerPhrase : String
  defaultBranch : String
  sourceBranch : Option String
  targetBranch : Option String
  jobId : String
  jobUrl : String
  pipelineId : String
  pipelineUrl : String
  token : String
  apiUrl : String
  deriving Repr, DecidableEq

/-- The string handed to `parseInt`:
`isMR ? process.env.CI_MERGE_REQUEST_IID! : process.env.CI_ISSUE_IID || '0'`. -/
def iidEnvValue (e : GitLabEnv) : String :=
  if truthyStr e.CI_MERGE_REQUEST_IID then e.CI_MERGE_REQUEST_IID.getD ""
  else jsOr e.CI_ISSUE_IID "0"

/-- `process.env.GITLAB_TOKEN || process.env.CLAUDE_BOT_TOKEN ||
process.env.CI_JOB_TOKEN || ''`. -/
def gitlabToken (e : GitLabEnv) : String :=
  jsOr e.GITLAB_TOKEN (jsOr e.CLAUDE_BOT_TOKEN (jsOr e.CI_JOB_TOKEN ""))

/-- The guard `!context.iid && context.iid !== 0` on the JS number `iid`:
for `NaN` both `!NaN` and `NaN !== 0` hold; for an ordinary number `i`,
`!i` means `i = 0` while `i !== 0` means `i ≠ 0`, so the guard is false. -/
def iidGuardFails : Option Int → Bool
  | none => true
  | some i => decide (i = 0) && decide (i ≠ 0)

/-- `parseGitLabContext` from `context.ts`: environment-driven context
construction with its three `throw` sites modelled as `Except.error`. -/
def parseGitLabContext (e : GitLabEnv) : Except String GitLabContext :=
  let isMR := truthyStr e.CI_MERGE_REQUEST_IID
  let iid := parseIntJS (iidEnvValue e)
  let token := gitlabToken e
  if token.isEmpty then
    Except.error
      "No GitLab token found. Please set CLAUDE_BOT_TOKEN or GITLAB_TOKEN in CI/CD variables."
  else
    let ctx : GitLabContext :=
      { projectId := jsOr e.CI_PROJECT_ID ""
        projectPath := jsOr e.CI_PROJECT_PATH ""
        projectUrl := jsOr e.CI_PROJECT_URL ""
        webUrl := jsOr e.CI_PROJECT_URL ""
        isMR := isMR
        iid := iid
        triggerUser := jsOr e.GITLAB_USER_LOGIN (jsOr e.CI_COMMIT_AUTHOR "")
        triggerUsername := jsOr e.GITLAB_USER_LOGIN (jsOr e.CI_COMMIT_AUTHOR "")
        triggerPhrase := jsOr e.CLAUDE_TRIGGER_PHRASE "@claude"
        defaultBranch := jsOr e.CI_DEFAULT_BRANCH "main"
        sourceBranch := e.CI_MERGE_REQUEST_SOURCE_BRANCH_NAME
        targetBranch := e.CI_MERGE_REQUEST_TARGET_BRANCH_NAME
        jobId := jsOr e.CI_JOB_ID ""
        jobUrl := jsOr e.CI_JOB_URL ""
        pipelineId := jsOr e.CI_PIPELINE_ID ""
        pipelineUrl := jsOr e.CI_PIPELINE_URL ""
        token := token
        apiUrl := jsOr e.CI_API_V4_URL "https://gitlab.com/api/v4" }
    if ctx.projectId.isEmpty then
      Except.error "CI_PROJECT_ID environment variable is required"
    else if iidGuardFails ctx.iid then
      Except.error
        "No MR or Issue IID found. Ensure CI_MERGE_REQUEST_IID or CI_ISSUE_IID is set."
    else
      Except.ok ctx

/-- An environment with project id and token but neither IID variable. -/
def envNoIid : GitLabEnv :=
  { CI_PROJECT_ID := some "123", GITLAB_TOKEN := some "tok" }

/-- An environment whose issue IID is a non-numeric string. -/
def envBadIid : GitLabEnv :=
  { CI_PROJECT_ID := some "123", GITLAB_TOKEN := some "tok",
    CI_ISSUE_IID := some "abc" }

/- ### The comment-update relay (main.ts, watchForUpdates) -/

/-- One tick of the `setInterval` loop in `watchForUpdates`: read the update
file (`none` models an unreadable/missing file, swallowed as "no update yet");
then `if (content && content !== lastContent)` publish the content via
`updateComment` and record it as `lastContent`.  Returns the new `lastContent`
and, when a publish happened, its payload. -/
def relayTick (lastContent : String) (channel : Option String) :
    String × Option String :=
  match channel with
  | none => (lastContent, none)
  | some content =>
      if !content.isEmpty && content != lastContent then (content, some content)
      else (lastContent, none)

/-- The relay over a sequence of observed channel contents, starting from
`lastContent` (initially `''` in the source): final `lastContent` together
with the list of publish events in order. -/
def relayRun (lastContent : String) : List (Option String) → String × List String
  | [] => (lastContent, [])
  | c :: cs =>
      match relayTick lastContent c with
      | (l1, some pub) =>
          ((relayRun l1 cs).1, pub :: (relayRun l1 cs).2)
      | (l1, none) => relayRun l1 cs

/- ### Relay / final-write interleaving (main.ts, main) -/

/-- Joint state of the tracking note, the progress channel, the watcher
process and the controller's final write.  `inFlight` holds an `updateComment`
edit that the watcher has already sent to the host but the host has not yet
applied. -/
structure SysState where
  note : String
  channel : String
  lastContent : String
  inFlight : Option String
  watcherAlive : Bool
  finalWritten : Bool
  deriving Repr, DecidableEq

inductive SysEvent where
  | relayPoll
  | hostApply
  | killWatcher
  | finalWrite (status : String)
  deriving Repr, DecidableEq

/-- Interleaving semantics of the shutdown path of `main` (main.ts):

* `relayPoll` — a tick of the watcher: requires the watcher alive with no
  pending edit; if the channel content is truthy and differs from
  `lastContent`, it sends an `updateComment` edit to the host (`inFlight`).
* `hostApply` — the host applies a previously sent edit to the tracking note;
  this is possible whether or not the watcher process is still alive, because
  killing the local process cannot revoke an HTTP request already issued.
* `killWatcher` — the controller's `execSync('kill <pid>')`: it signals the
  watcher (no further polls) but does not wait for, or cancel, an in-flight
  edit.
* `finalWrite s` — the controller's final `updateComment` with the success or
  error status.

`none` means the event is not enabled in that state. -/
def sysStep (s : SysState) (ev : SysEvent) : Option SysState :=
  match ev with
  | SysEvent.relayPoll =>
      if s.watcherAlive ∧ s.inFlight = none then
        if !s.channel.isEmpty && s.channel != s.lastContent then
          some { s with inFlight := some s.channel }
        else some s
      else none
  | SysEvent.hostApply =>
      match s.inFlight with
      | some c => some { s with note := c, lastContent := c, inFlight := none }
      | none => none
  | SysEvent.killWatcher =>
      if s.watcherAlive then some { s with watcherAlive := false } else none
  | SysEvent.finalWrite st =>
      if s.finalWritten then none
      else some { s with note := st, finalWritten := true }

/-- Run a sequence of events; `none` when some event is not enabled. -/
def sysRun (s : SysState) : List SysEvent → Option SysState
  | [] => some s
  | ev :: evs =>
      match sysStep s ev with
      | some s1 => sysRun s1 evs
      | none => none

/-- Initial shutdown state: the agent has just written `"X"` to the channel
and terminated; nothing published yet. -/
def sysInit : SysState :=
  { note := "init", channel := "X", lastContent := "",
    inFlight := none, watcherAlive := true, finalWritten := false }

/-- A schedule compatible with the code: the watcher polls (sending an edit),
then the controller kills the watcher and writes the final status — in the
order the code performs them — and only afterwards does the host apply the
watcher's earlier edit. -/
def shutdownTrace : List SysEvent :=
  [SysEvent.relayPoll, SysEvent.killWatcher,
    SysEvent.finalWrite "done", SysEvent.hostApply]

/- ### Theorems -/

/-- `containsSub` decides contiguous-sublist occurrence. -/
theorem containsSub_iff (pat l : List Char) : containsSub pat l = true ↔ pat <:+: l := by
  induction l with
  | nil =>
      simp only [containsSub, List.isEmpty_iff]
      constructor
      · rintro rfl; exact List.infix_rfl
      · intro h; exact List.eq_nil_of_infix_nil h
  | cons c rest ih =>
      simp [containsSub, List.isPrefixOf_iff_prefix, ih, List.infix_cons_iff]

/-- Membership in the `triggerComments` array accumulated by `checkTrigger`. -/
theorem mem_collectTriggerComments (p : String) (ds : List Discussion)
    (t : TriggerComment) :
    t ∈ collectTriggerComments p ds ↔
      ∃ d ∈ ds, t.note ∈ d.notes ∧ noteIsTrigger p t.note = true ∧
        t.discussionId = d.id ∧ t.hasClaudeReply = discussionHasClaudeReply d := by
  simp only [collectTriggerComments, discussionTriggerNotes, List.mem_flatMap,
    List.mem_map, List.mem_filter]
  constructor
  · rintro ⟨d, hd, n, ⟨hn, htrig⟩, rfl⟩
    exact ⟨d, hd, hn, htrig, rfl, rfl⟩
  · rintro ⟨d, hd, hn, htrig, hid, hrep⟩
    refine ⟨d, hd, t.note, ⟨hn, htrig⟩, ?_⟩
    cases t
    simp_all

/-- C1 counterexample: on a discussion set whose only trigger already has an
agent reply, `checkTrigger` does suppress the run, but its reason string is
`"All trigger comments already have Claude replies"`, not the
`"all triggers already answered"` stated by the claim. -/
theorem checkTrigger_reason_cex :
    (checkTrigger "@claude" false emptyEntity [discAnswered]).shouldRun = false ∧
    (checkTrigger "@claude" false emptyEntity [discAnswered]).hasExistingResponse = true ∧
    (checkTrigger "@claude" false emptyEntity [discAnswered]).reason ≠
      "all triggers already answered" := by
  decide

/-- C1 (amended): whenever at least one trigger note exists and every
discussion containing a trigger note also contains a note authored by the
agent identity, `checkTrigger` returns `shouldRun = false` with
`hasExistingResponse = true` and reason
`"All trigger comments already have Claude replies"` — the controller never
decides to run solely because a previously-answered trigger discussion still
exists. -/
theorem checkTrigger_all_answered (p : String) (isMR : Bool) (e : EntityInfo)
    (ds : List Discussion)
    (hex : ∃ d ∈ ds, ∃ n ∈ d.notes, noteIsTrigger p n = true)
    (hall : ∀ d ∈ ds, (∃ n ∈ d.notes, noteIsTrigger p n = true) →
      discussionHasClaudeReply d = true) :
    (checkTrigger p isMR e ds).shouldRun = false ∧
    (checkTrigger p isMR e ds).hasExistingResponse = true ∧
    (checkTrigger p isMR e ds).reason =
      "All trigger comments already have Claude replies" := by
  have hnew : newTriggers p ds = [] := by
    rw [newTriggers, List.filter_eq_nil_iff]
    intro t ht
    rw [mem_collectTriggerComments] at ht
    obtain ⟨d, hd, hn, htrig, _, hrep⟩ := ht
    have hcl := hall d hd ⟨t.note, hn, htrig⟩
    simp [hrep, hcl]
  have hpos : 0 < (collectTriggerComments p ds).length := by
    obtain ⟨d, hd, n, hn, htrig⟩ := hex
    have hmem : (⟨n, d.id, discussionHasClaudeReply d⟩ : TriggerComment) ∈
        collectTriggerComments p ds := by
      rw [mem_collectTriggerComments]
      exact ⟨d, hd, hn, htrig, rfl, rfl⟩
    exact List.length_pos.mpr (List.ne_nil_of_mem hmem)
  have hres : checkTrigger p isMR e ds =
      { shouldRun := false
        reason := "All trigger comments already have Claude replies"
        triggerType := some "comment"
        triggerComments := []
        hasExistingResponse := true } := by
    rw [checkTrigger, hnew]
    rw [if_neg (by simp), if_pos hpos]
  rw [hres]
  exact ⟨rfl, rfl, rfl⟩

/-- C1 witness: the amended statement holds on a concrete discussion whose
trigger note is followed by an agent reply. -/
theorem checkTrigger_all_answered_witness :
    ((∃ d ∈ [discAnswered], ∃ n ∈ d.notes, noteIsTrigger "@claude" n = true) ∧
      (∀ d ∈ [discAnswered], (∃ n ∈ d.notes, noteIsTrigger "@claude" n = true) →
        discussionHasClaudeReply d = true)) ∧
    ((checkTrigger "@claude" false emptyEntity [discAnswered]).shouldRun = false ∧
      (checkTrigger "@claude" false emptyEntity [discAnswered]).hasExistingResponse = true ∧
      (checkTrigger "@claude" false emptyEntity [discAnswered]).reason =
        "All trigger comments already have Claude replies") :=
  ⟨⟨by decide, by decide⟩,
    checkTrigger_all_answered "@claude" false emptyEntity [discAnswered]
      (by decide) (by decide)⟩

/-- C2: `newTriggers` contains exactly the trigger notes whose containing
discussion has no note authored by the agent identity; and on two discussions
— one with an unanswered trigger, one with an answered trigger —
`checkTrigger` runs with exactly the unanswered trigger selected. -/
theorem newTriggers_spec (p : String) (ds : List Discussion) :
    (∀ t : TriggerComment, t ∈ newTriggers p ds ↔
        ∃ d ∈ ds, t.note ∈ d.notes ∧ noteIsTrigger p t.note = true ∧
          discussionHasClaudeReply d = false ∧
          t.discussionId = d.id ∧ t.hasClaudeReply = false)
    ∧ (checkTrigger "@claude" false emptyEntity
        [discUnanswered, discAnswered]).shouldRun = true
    ∧ (checkTrigger "@claude" false emptyEntity
        [discUnanswered, discAnswered]).triggerComments =
        [{ note := noteTrigUser2, discussionId := "d2", hasClaudeReply := false }] := by
  refine ⟨?_, by decide, by decide⟩
  intro t
  rw [newTriggers, List.mem_filter, mem_collectTriggerComments]
  constructor
  · rintro ⟨⟨d, hd, hn, htrig, hid, hrep⟩, hfil⟩
    have hf : t.hasClaudeReply = false := by simpa using hfil
    exact ⟨d, hd, hn, htrig, by rw [← hrep, hf], hid, hf⟩
  · rintro ⟨d, hd, hn, htrig, hrepd, hid, hrep⟩
    exact ⟨⟨d, hd, hn, htrig, hid, by rw [hrep, hrepd]⟩, by simp [hrep]⟩

/-- C8: `isValidTrigger` returns true iff the activation phrase occurs as a
case-insensitive contiguous substring of the note body — no word-boundary
requirement — and in particular it fires on phrase `"@claude"` inside the body
`"Hey @CLAUDE can you help?"`. -/
theorem isValidTrigger_spec (text triggerPhrase : String) :
    (isValidTrigger text triggerPhrase = true ↔
      ∃ l r : List Char,
        (lowerStr text).data = l ++ (lowerStr triggerPhrase).data ++ r)
    ∧ isValidTrigger "Hey @CLAUDE can you help?" "@claude" = true := by
  constructor
  · rw [isValidTrigger, containsSub_iff]
    constructor
    · rintro ⟨l, r, h⟩; exact ⟨l, r, h.symm⟩
    · rintro ⟨l, r, h⟩; exact ⟨l, r, h.symm⟩
  · decide

/- ### Characterization of `categorizeComments` -/

theorem classifyNote_triggerComments (p : String) (res : Bool)
    (acc : CategorizedComments) (n : Note) :
    (classifyNote p res acc n).triggerComments =
      acc.triggerComments ++
        (if !isClaudeNote n && noteIsTrigger p n then [n] else []) := by
  rw [classifyNote]
  by_cases hc : isClaudeNote n
  · simp [hc]
  · by_cases ht : noteIsTrigger p n
    · simp [hc, ht]
    · by_cases hr : res <;> simp [hc, ht, hr]

theorem classifyNote_contextComments (p : String) (res : Bool)
    (acc : CategorizedComments) (n : Note) :
    (classifyNote p res acc n).contextComments =
      acc.contextComments ++
        (if (!isClaudeNote n && !noteIsTrigger p n) && !res then [n] else []) := by
  rw [classifyNote]
  by_cases hc : isClaudeNote n
  · simp [hc]
  · by_cases ht : noteIsTrigger p n
    · simp [hc, ht]
    · by_cases hr : res <;> simp [hc, ht, hr]

theorem classifyNote_resolvedComments (p : String) (res : Bool)
    (acc : CategorizedComments) (n : Note) :
    (classifyNote p res acc n).resolvedComments =
      acc.resolvedComments ++
        (if (!isClaudeNote n && !noteIsTrigger p n) && res then [n] else []) := by
  rw [classifyNote]
  by_cases hc : isClaudeNote n
  · simp [hc]
  · by_cases ht : noteIsTrigger p n
    · simp [hc, ht]
    · by_cases hr : res <;> simp [hc, ht, hr]

theorem classifyNote_claudeReplies (p : String) (res : Bool)
    (acc : CategorizedComments) (n : Note) :
    (classifyNote p res acc n).claudeReplies = acc.claudeReplies := by
  rw [classifyNote]
  by_cases hc : isClaudeNote n
  · simp [hc]
  · by_cases ht : noteIsTrigger p n
    · simp [hc, ht]
    · by_cases hr : res <;> simp [hc, ht, hr]

theorem foldl_classify_trigger (p : String) (res : Bool) (ns : List Note)
    (acc : CategorizedComments) :
    (ns.foldl (classifyNote p res) acc).triggerComments =
      acc.triggerComments ++
        ns.filter fun n => !isClaudeNote n && noteIsTrigger p n := by
  induction ns generalizing acc with
  | nil => simp
  | cons a ns ih =>
      rw [List.foldl_cons, ih, classifyNote_triggerComments, List.filter_cons]
      by_cases h : (!isClaudeNote a && noteIsTrigger p a) = true
      · simp [h]
      · simp [h]

theorem foldl_classify_context (p : String) (res : Bool) (ns : List Note)
    (acc : CategorizedComments) :
    (ns.foldl (classifyNote p res) acc).contextComments =
      acc.contextComments ++
        ns.filter fun n => (!isClaudeNote n && !noteIsTrigger p n) && !res := by
  induction ns generalizing acc with
  | nil => simp
  | cons a ns ih =>
      rw [List.foldl_cons, ih, classifyNote_contextComments, List.filter_cons]
      by_cases h : ((!isClaudeNote a && !noteIsTrigger p a) && !res) = true
      · simp [h]
      · simp [h]

theorem foldl_classify_resolved (p : String) (res : Bool) (ns : List Note)
    (acc : CategorizedComments) :
    (ns.foldl (classifyNote p res) acc).resolvedComments =
      acc.resolvedComments ++
        ns.filter fun n => (!isClaudeNote n && !noteIsTrigger p n) && res := by
  induction ns generalizing acc with
  | nil => simp
  | cons a ns ih =>
      rw [List.foldl_cons, ih, classifyNote_resolvedComments, List.filter_cons]
      by_cases h : ((!isClaudeNote a && !noteIsTrigger p a) && res) = true
      · simp [h]
      · simp [h]

theorem foldl_classify_claude (p : String) (res : Bool) (ns : List Note)
    (acc : CategorizedComments) :
    (ns.foldl (classifyNote p res) acc).claudeReplies = acc.claudeReplies := by
  induction ns generalizing acc with
  | nil => simp
  | cons a ns ih => rw [List.foldl_cons, ih, classifyNote_claudeReplies]

theorem categorizeDiscussion_trigger (p : String) (acc : CategorizedComments)
    (d : Discussion) :
    (categorizeDiscussion p acc d).triggerComments =
      acc.triggerComments ++
        d.notes.filter fun n => !isClaudeNote n && noteIsTrigger p n := by
  rw [categorizeDiscussion, foldl_classify_trigger]

theorem categorizeDiscussion_context (p : String) (acc : CategorizedComments)
    (d : Discussion) :
    (categorizeDiscussion p acc d).contextComments =
      acc.contextComments ++
        d.notes.filter fun n =>
          (!isClaudeNote n && !noteIsTrigger p n) && !d.resolved := by
  rw [categorizeDiscussion, foldl_classify_context]

theorem categorizeDiscussion_resolved (p : String) (acc : CategorizedComments)
    (d : Discussion) :
    (categorizeDiscussion p acc d).resolvedComments =
      acc.resolvedComments ++
        d.notes.filter fun n =>
          (!isClaudeNote n && !noteIsTrigger p n) && d.resolved := by
  rw [categorizeDiscussion, foldl_classify_resolved]

theorem categorizeDiscussion_claude (p : String) (acc : CategorizedComments)
    (d : Discussion) :
    (categorizeDiscussion p acc d).claudeReplies =
      acc.claudeReplies ++ d.notes.filter isClaudeNote := by
  rw [categorizeDiscussion, foldl_classify_claude]

theorem allNotes_cons (d : Discussion) (ds : List Discussion) :
    allNotes (d :: ds) = d.notes ++ allNotes ds := by
  simp [allNotes]

theorem notePairs_cons (d : Discussion) (ds : List Discussion) :
    notePairs (d :: ds) = (d.notes.map fun n => (n, d.resolved)) ++ notePairs ds := by
  simp [notePairs]

theorem map_pair_fst (l : List Note) (b : Bool) :
    (l.map fun n => ((n, b) : Note × Bool)).map Prod.fst = l := by
  induction l with
  | nil => rfl
  | cons a l ih => simp [ih]

theorem pairs_filter_fst (l : List Note) (b : Bool) (q : Note → Bool)
    (g : Bool → Bool) :
    (((l.map fun n => (n, b)).filter fun pr => q pr.1 && g pr.2).map Prod.fst)
      = l.filter fun n => q n && g b := by
  induction l with
  | nil => simp
  | cons a l ih =>
      simp only [List.map_cons, List.filter_cons]
      by_cases h : (q a && g b) = true
      · simp [h, ih]
      · simp [h, ih]

theorem foldl_categorize_trigger (p : String) (ds : List Discussion)
    (acc : CategorizedComments) :
    (ds.foldl (categorizeDiscussion p) acc).triggerComments =
      acc.triggerComments ++
        (allNotes ds).filter fun n => !isClaudeNote n && noteIsTrigger p n := by
  induction ds generalizing acc with
  | nil => simp [allNotes]
  | cons d ds ih =>
      rw [List.foldl_cons, ih, categorizeDiscussion_trigger]
      simp [allNotes, List.flatMap_cons, List.filter_append, List.append_assoc]

theorem foldl_categorize_claude (p : String) (ds : List Discussion)
    (acc : CategorizedComments) :
    (ds.foldl (categorizeDiscussion p) acc).claudeReplies =
      acc.claudeReplies ++ (allNotes ds).filter isClaudeNote := by
  induction ds generalizing acc with
  | nil => simp [allNotes]
  | cons d ds ih =>
      rw [List.foldl_cons, ih, categorizeDiscussion_claude]
      simp [allNotes, List.flatMap_cons, List.filter_append, List.append_assoc]

theorem foldl_categorize_context (p : String) (ds : List Discussion)
    (acc : CategorizedComments) :
    (ds.foldl (categorizeDiscussion p) acc).contextComments =
      acc.contextComments ++
        ((notePairs ds).filter fun pr =>
          (!isClaudeNote pr.1 && !noteIsTrigger p pr.1) && !pr.2).map Prod.fst := by
  induction ds generalizing acc with
  | nil => simp [notePairs]
  | cons d ds ih =>
      rw [List.foldl_cons, ih, categorizeDiscussion_context]
      rw [notePairs_cons, List.filter_append, List.map_append,
        pairs_filter_fst d.notes d.resolved
          (fun n => !isClaudeNote n && !noteIsTrigger p n) (fun x => !x)]
      rw [List.append_assoc]

theorem foldl_categorize_resolved (p : String) (ds : List Discussion)
    (acc : CategorizedComments) :
    (ds.foldl (categorizeDiscussion p) acc).resolvedComments =
      acc.resolvedComments ++
        ((notePairs ds).filter fun pr =>
          (!isClaudeNote pr.1 && !noteIsTrigger p pr.1) && pr.2).map Prod.fst := by
  induction ds generalizing acc with
  | nil => simp [notePairs]
  | cons d ds ih =>
      rw [List.foldl_cons, ih, categorizeDiscussion_resolved]
      rw [notePairs_cons, List.filter_append, List.map_append,
        pairs_filter_fst d.notes d.resolved
          (fun n => !isClaudeNote n && !noteIsTrigger p n) (fun x => x)]
      rw [List.append_assoc]

theorem categorize_trigger (p : String) (ds : List Discussion) :
    (categorizeComments p ds).triggerComments =
      (allNotes ds).filter fun n => !isClaudeNote n && noteIsTrigger p n := by
  rw [categorizeComments, foldl_categorize_trigger]
  rfl

theorem categorize_claude (p : String) (ds : List Discussion) :
    (categorizeComments p ds).claudeReplies = (allNotes ds).filter isClaudeNote := by
  rw [categorizeComments, foldl_categorize_claude]
  rfl

theorem categorize_context (p : String) (ds : List Discussion) :
    (categorizeComments p ds).contextComments =
      ((notePairs ds).filter fun pr =>
        (!isClaudeNote pr.1 && !noteIsTrigger p pr.1) && !pr.2).map Prod.fst := by
  rw [categorizeComments, foldl_categorize_context]
  rfl

theorem categorize_resolved (p : String) (ds : List Discussion) :
    (categorizeComments p ds).resolvedComments =
      ((notePairs ds).filter fun pr =>
        (!isClaudeNote pr.1 && !noteIsTrigger p pr.1) && pr.2).map Prod.fst := by
  rw [categorizeComments, foldl_categorize_resolved]
  rfl

theorem map_fst_notePairs (ds : List Discussion) :
    (notePairs ds).map Prod.fst = allNotes ds := by
  induction ds with
  | nil => rfl
  | cons d ds ih =>
      rw [notePairs_cons, allNotes_cons, List.map_append, ih, map_pair_fst]

theorem mem_allNotes (ds : List Discussion) (n : Note) :
    n ∈ allNotes ds ↔ ∃ d ∈ ds, n ∈ d.notes := by
  simp [allNotes, List.mem_flatMap]

theorem mem_notePairs (ds : List Discussion) (n : Note) (b : Bool) :
    (n, b) ∈ notePairs ds ↔ ∃ d ∈ ds, n ∈ d.notes ∧ d.resolved = b := by
  simp only [notePairs, List.mem_flatMap, List.mem_map]
  constructor
  · rintro ⟨d, hd, m, hm, heq⟩
    obtain ⟨rfl, rfl⟩ := Prod.mk.injEq .. ▸ And.intro (congrArg Prod.fst heq) (congrArg Prod.snd heq)
    exact ⟨d, hd, hm, rfl⟩
  · rintro ⟨d, hd, hm, rfl⟩
    exact ⟨d, hd, n, hm, rfl⟩

/-- Membership in the `triggerComments` category. -/
theorem mem_categorize_trigger (p : String) (ds : List Discussion) (n : Note) :
    n ∈ (categorizeComments p ds).triggerComments ↔
      n ∈ allNotes ds ∧ isClaudeNote n = false ∧ noteIsTrigger p n = true := by
  rw [categorize_trigger, List.mem_filter]
  simp [Bool.and_eq_true, Bool.not_eq_true']

/-- Membership in the `claudeReplies` category. -/
theorem mem_categorize_claude (p : String) (ds : List Discussion) (n : Note) :
    n ∈ (categorizeComments p ds).claudeReplies ↔
      n ∈ allNotes ds ∧ isClaudeNote n = true := by
  rw [categorize_claude, List.mem_filter]

/-- Membership in the `contextComments` category. -/
theorem mem_categorize_context (p : String) (ds : List Discussion) (n : Note) :
    n ∈ (categorizeComments p ds).contextComments ↔
      (n, false) ∈ notePairs ds ∧ isClaudeNote n = false ∧
        noteIsTrigger p n = false := by
  rw [categorize_context]
  simp only [List.mem_map, List.mem_filter]
  constructor
  · rintro ⟨⟨m, b⟩, ⟨hmem, hpred⟩, rfl⟩
    simp only [Bool.and_eq_true, Bool.not_eq_true'] at hpred
    obtain ⟨⟨hc, ht⟩, hb⟩ := hpred
    subst hb
    exact ⟨hmem, hc, ht⟩
  · rintro ⟨hmem, hc, ht⟩
    exact ⟨(n, false), ⟨hmem, by simp [hc, ht]⟩, rfl⟩

/-- Membership in the `resolvedComments` category. -/
theorem mem_categorize_resolved (p : String) (ds : List Discussion) (n : Note) :
    n ∈ (categorizeComments p ds).resolvedComments ↔
      (n, true) ∈ notePairs ds ∧ isClaudeNote n = false ∧
        noteIsTrigger p n = false := by
  rw [categorize_resolved]
  simp only [List.mem_map, List.mem_filter]
  constructor
  · rintro ⟨⟨m, b⟩, ⟨hmem, hpred⟩, rfl⟩
    simp only [Bool.and_eq_true, Bool.not_eq_true'] at hpred
    obtain ⟨⟨hc, ht⟩, hb⟩ := hpred
    subst hb
    exact ⟨hmem, hc, ht⟩
  · rintro ⟨hmem, hc, ht⟩
    exact ⟨(n, true), ⟨hmem, by simp [hc, ht]⟩, rfl⟩

/-- C3: on every discussion set with globally distinct notes (each note belongs
to exactly one discussion), the three non-agent categories of
`categorizeComments` are pairwise disjoint, their union is exactly the set of
notes not authored by the agent identity, and `claudeReplies` is exactly the
set of agent-authored notes. -/
theorem categorizeComments_partition (p : String) (ds : List Discussion)
    (hnodup : (allNotes ds).Nodup) :
    (∀ n : Note,
      (n ∈ (categorizeComments p ds).triggerComments ∨
        n ∈ (categorizeComments p ds).contextComments ∨
        n ∈ (categorizeComments p ds).resolvedComments) ↔
      (n ∈ allNotes ds ∧ isClaudeNote n = false)) ∧
    List.Disjoint (categorizeComments p ds).triggerComments
      (categorizeComments p ds).contextComments ∧
    List.Disjoint (categorizeComments p ds).triggerComments
      (categorizeComments p ds).resolvedComments ∧
    List.Disjoint (categorizeComments p ds).contextComments
      (categorizeComments p ds).resolvedComments ∧
    (∀ n : Note, n ∈ (categorizeComments p ds).claudeReplies ↔
      (n ∈ allNotes ds ∧ isClaudeNote n = true)) := by
  refine ⟨?_, ?_, ?_, ?_, fun n => mem_categorize_claude p ds n⟩
  · intro n
    constructor
    · rintro (h | h | h)
      · obtain ⟨hmem, hc, _⟩ := (mem_categorize_trigger p ds n).1 h
        exact ⟨hmem, hc⟩
      · obtain ⟨hmem, hc, _⟩ := (mem_categorize_context p ds n).1 h
        refine ⟨?_, hc⟩
        rw [← map_fst_notePairs]
        exact List.mem_map.2 ⟨(n, false), hmem, rfl⟩
      · obtain ⟨hmem, hc, _⟩ := (mem_categorize_resolved p ds n).1 h
        refine ⟨?_, hc⟩
        rw [← map_fst_notePairs]
        exact List.mem_map.2 ⟨(n, true), hmem, rfl⟩
    · rintro ⟨hmem, hc⟩
      obtain ⟨d, hd, hn⟩ := (mem_allNotes ds n).1 hmem
      by_cases ht : noteIsTrigger p n = true
      · exact Or.inl ((mem_categorize_trigger p ds n).2 ⟨hmem, hc, ht⟩)
      · have ht' : noteIsTrigger p n = false := by
          cases h : noteIsTrigger p n
          · rfl
          · exact absurd h ht
        cases hres : d.resolved
        · refine Or.inr (Or.inl ((mem_categorize_context p ds n).2 ⟨?_, hc, ht'⟩))
          exact (mem_notePairs ds n false).2 ⟨d, hd, hn, hres⟩
        · refine Or.inr (Or.inr ((mem_categorize_resolved p ds n).2 ⟨?_, hc, ht'⟩))
          exact (mem_notePairs ds n true).2 ⟨d, hd, hn, hres⟩
  · intro n h1 h2
    obtain ⟨_, _, ht⟩ := (mem_categorize_trigger p ds n).1 h1
    obtain ⟨_, _, ht'⟩ := (mem_categorize_context p ds n).1 h2
    rw [ht] at ht'
    exact Bool.true_eq_false ▸ ht' ▸ rfl
  · intro n h1 h2
    obtain ⟨_, _, ht⟩ := (mem_categorize_trigger p ds n).1 h1
    obtain ⟨_, _, ht'⟩ := (mem_categorize_resolved p ds n).1 h2
    rw [ht] at ht'
    exact Bool.true_eq_false ▸ ht' ▸ rfl
  · intro n h1 h2
    obtain ⟨hm1, _, _⟩ := (mem_categorize_context p ds n).1 h1
    obtain ⟨hm2, _, _⟩ := (mem_categorize_resolved p ds n).1 h2
    have hmap : ((notePairs ds).map Prod.fst).Nodup := by
      rw [map_fst_notePairs]; exact hnodup
    have := List.inj_on_of_nodup_map hmap hm1 hm2 rfl
    simp at this

/-- C3 witness: the partition invariant on a concrete two-discussion set. -/
theorem categorizeComments_partition_witness :
    (allNotes [discAnswered, discUnanswered]).Nodup ∧
    ((∀ n : Note,
      (n ∈ (categorizeComments "@claude" [discAnswered, discUnanswered]).triggerComments ∨
        n ∈ (categorizeComments "@claude" [discAnswered, discUnanswered]).contextComments ∨
        n ∈ (categorizeComments "@claude" [discAnswered, discUnanswered]).resolvedComments) ↔
      (n ∈ allNotes [discAnswered, discUnanswered] ∧ isClaudeNote n = false)) ∧
    List.Disjoint (categorizeComments "@claude" [discAnswered, discUnanswered]).triggerComments
      (categorizeComments "@claude" [discAnswered, discUnanswered]).contextComments ∧
    List.Disjoint (categorizeComments "@claude" [discAnswered, discUnanswered]).triggerComments
      (categorizeComments "@claude" [discAnswered, discUnanswered]).resolvedComments ∧
    List.Disjoint (categorizeComments "@claude" [discAnswered, discUnanswered]).contextComments
      (categorizeComments "@claude" [discAnswered, discUnanswered]).resolvedComments ∧
    (∀ n : Note, n ∈ (categorizeComments "@claude" [discAnswered, discUnanswered]).claudeReplies ↔
      (n ∈ allNotes [discAnswered, discUnanswered] ∧ isClaudeNote n = true))) :=
  ⟨by decide,
    categorizeComments_partition "@claude" [discAnswered, discUnanswered] (by decide)⟩

/-- C4 counterexample: a note with a missing author whose body contains the
activation phrase is classified as a trigger, not by the resolution state of
its (unresolved) discussion, contradicting the claim that a note missing its
author is non-trigger regardless of its body content. -/
theorem categorize_malformed_cex :
    noteNoAuthor.author = none ∧
    (categorizeComments "@claude" [discMalformed]).triggerComments = [noteNoAuthor] ∧
    (categorizeComments "@claude" [discMalformed]).contextComments = [] := by
  decide

/-- C4 (amended): a malformed note (missing author or missing body) is never
dropped; a note missing its author is treated as non-agent (never in
`claudeReplies`) but is still trigger-checked on its body; a note missing its
body is treated as non-trigger (never in `triggerComments`); a note missing
both is placed by the resolution state of its discussion alone. -/
theorem categorize_malformed (p : String) (ds : List Discussion)
    (d : Discussion) (n : Note) (hd : d ∈ ds) (hn : n ∈ d.notes)
    (hmal : n.author = none ∨ n.body = none) :
    (n ∈ (categorizeComments p ds).triggerComments ∨
      n ∈ (categorizeComments p ds).contextComments ∨
      n ∈ (categorizeComments p ds).resolvedComments ∨
      n ∈ (categorizeComments p ds).claudeReplies) ∧
    (n.author = none → n ∉ (categorizeComments p ds).claudeReplies) ∧
    (n.body = none → n ∉ (categorizeComments p ds).triggerComments) ∧
    (n.author = none → n.body = none →
      (d.resolved = true → n ∈ (categorizeComments p ds).resolvedComments) ∧
      (d.resolved = false → n ∈ (categorizeComments p ds).contextComments)) := by
  have hmem : n ∈ allNotes ds := (mem_allNotes ds n).2 ⟨d, hd, hn⟩
  refine ⟨?_, ?_, ?_, ?_⟩
  · by_cases hc : isClaudeNote n = true
    · exact Or.inr (Or.inr (Or.inr ((mem_categorize_claude p ds n).2 ⟨hmem, hc⟩)))
    · have hc' : isClaudeNote n = false := by
        cases h : isClaudeNote n
        · rfl
        · exact absurd h hc
      by_cases ht : noteIsTrigger p n = true
      · exact Or.inl ((mem_categorize_trigger p ds n).2 ⟨hmem, hc', ht⟩)
      · have ht' : noteIsTrigger p n = false := by
          cases h : noteIsTrigger p n
          · rfl
          · exact absurd h ht
        cases hres : d.resolved
        · refine Or.inr (Or.inl ((mem_categorize_context p ds n).2 ⟨?_, hc', ht'⟩))
          exact (mem_notePairs ds n false).2 ⟨d, hd, hn, hres⟩
        · refine Or.inr (Or.inr (Or.inl ((mem_categorize_resolved p ds n).2 ⟨?_, hc', ht'⟩)))
          exact (mem_notePairs ds n true).2 ⟨d, hd, hn, hres⟩
  · intro ha hcl
    obtain ⟨_, hc⟩ := (mem_categorize_claude p ds n).1 hcl
    rw [isClaudeNote, ha] at hc
    exact Bool.false_ne_true hc
  · intro hb htr
    obtain ⟨_, _, ht⟩ := (mem_categorize_trigger p ds n).1 htr
    rw [noteIsTrigger, hb] at ht
    exact Bool.false_ne_true ht
  · intro ha hb
    have hc' : isClaudeNote n = false := by rw [isClaudeNote, ha]
    have ht' : noteIsTrigger p n = false := by rw [noteIsTrigger, hb]
    constructor
    · intro hres
      exact (mem_categorize_resolved p ds n).2
        ⟨(mem_notePairs ds n true).2 ⟨d, hd, hn, hres⟩, hc', ht'⟩
    · intro hres
      exact (mem_categorize_context p ds n).2
        ⟨(mem_notePairs ds n false).2 ⟨d, hd, hn, hres⟩, hc', ht'⟩

/-- C4 witness: the amended statement on the concrete malformed note. -/
theorem categorize_malformed_witness :
    (discMalformed ∈ [discMalformed] ∧ noteNoAuthor ∈ discMalformed.notes ∧
      (noteNoAuthor.author = none ∨ noteNoAuthor.body = none)) ∧
    ((noteNoAuthor ∈ (categorizeComments "@claude" [discMalformed]).triggerComments ∨
      noteNoAuthor ∈ (categorizeComments "@claude" [discMalformed]).contextComments ∨
      noteNoAuthor ∈ (categorizeComments "@claude" [discMalformed]).resolvedComments ∨
      noteNoAuthor ∈ (categorizeComments "@claude" [discMalformed]).claudeReplies) ∧
    (noteNoAuthor.author = none →
      noteNoAuthor ∉ (categorizeComments "@claude" [discMalformed]).claudeReplies) ∧
    (noteNoAuthor.body = none →
      noteNoAuthor ∉ (categorizeComments "@claude" [discMalformed]).triggerComments) ∧
    (noteNoAuthor.author = none → noteNoAuthor.body = none →
      (discMalformed.resolved = true →
        noteNoAuthor ∈ (categorizeComments "@claude" [discMalformed]).resolvedComments) ∧
      (discMalformed.resolved = false →
        noteNoAuthor ∈ (categorizeComments "@claude" [discMalformed]).contextComments))) :=
  ⟨⟨by decide, by decide, by decide⟩,
    categorize_malformed "@claude" [discMalformed] discMalformed noteNoAuthor
      (by decide) (by decide) (by decide)⟩

/-- The character data of a lowercased non-empty string is non-empty. -/
theorem lowerStr_data_ne_nil (s : String) (h : s ≠ "") : (lowerStr s).data ≠ [] := by
  intro hnil
  apply h
  cases s with
  | mk l =>
      cases l with
      | nil => rfl
      | cons a l => simp [lowerStr] at hnil

/-- A body that contains a non-empty activation phrase passes the source's
combined `note.body && isValidTrigger(...)` check. -/
theorem noteIsTrigger_of_match (p : String) (n : Note) (b : String)
    (hp : p ≠ "") (hbody : n.body = some b) (hmatch : isValidTrigger b p = true) :
    noteIsTrigger p n = true := by
  rw [noteIsTrigger, hbody]
  have hb : b ≠ "" := by
    intro hb0
    subst hb0
    rw [isValidTrigger] at hmatch
    have : (lowerStr p).data.isEmpty = true := by
      simpa [containsSub, lowerStr] using hmatch
    exact lowerStr_data_ne_nil p hp (List.isEmpty_iff.1 this)
  have hbe : b.isEmpty = false := by
    cases h : b.isEmpty
    · rfl
    · exact absurd ((String.isEmpty_iff b).1 h) hb
  simp [hbe, hmatch]

/-- C5: a non-agent note whose body contains the (non-empty) activation phrase
and which sits in a resolved discussion is classified into `triggerComments`,
never into `resolvedComments` — trigger status takes priority over resolution
status.  (`parseGitLabContext` guarantees the phrase is non-empty: it is
`process.env.CLAUDE_TRIGGER_PHRASE || '@claude'`.) -/
theorem trigger_priority_over_resolved (p : String) (ds : List Discussion)
    (d : Discussion) (n : Note) (b : String)
    (hp : p ≠ "") (hd : d ∈ ds) (hn : n ∈ d.notes)
    (hagent : isClaudeNote n = false)
    (hbody : n.body = some b) (hmatch : isValidTrigger b p = true)
    (hres : d.resolved = true) :
    n ∈ (categorizeComments p ds).triggerComments ∧
    n ∉ (categorizeComments p ds).resolvedComments := by
  have ht := noteIsTrigger_of_match p n b hp hbody hmatch
  constructor
  · exact (mem_categorize_trigger p ds n).2 ⟨(mem_allNotes ds n).2 ⟨d, hd, hn⟩, hagent, ht⟩
  · intro hmem
    obtain ⟨_, _, ht'⟩ := (mem_categorize_resolved p ds n).1 hmem
    rw [ht] at ht'
    exact Bool.true_eq_false ▸ ht' ▸ rfl

/-- C5 witness: the priority rule on a concrete resolved discussion holding a
trigger note. -/
theorem trigger_priority_over_resolved_witness :
    (("@claude" : String) ≠ "" ∧ discResolvedTrig ∈ [discResolvedTrig] ∧
      noteTrigUser ∈ discResolvedTrig.notes ∧ isClaudeNote noteTrigUser = false ∧
      noteTrigUser.body = some "@claude please fix" ∧
      isValidTrigger "@claude please fix" "@claude" = true ∧
      discResolvedTrig.resolved = true) ∧
    (noteTrigUser ∈ (categorizeComments "@claude" [discResolvedTrig]).triggerComments ∧
      noteTrigUser ∉ (categorizeComments "@claude" [discResolvedTrig]).resolvedComments) :=
  ⟨⟨by decide, by decide, by decide, by decide, by decide, by decide, by decide⟩,
    trigger_priority_over_resolved "@claude" [discResolvedTrig] discResolvedTrig
      noteTrigUser "@claude please fix" (by decide) (by decide) (by decide)
      (by decide) (by decide) (by decide) (by decide)⟩

/-- A string has `isEmpty = false` exactly when it is not the empty string. -/
theorem isEmpty_false_iff (s : String) : s.isEmpty = false ↔ s ≠ "" := by
  constructor
  · intro h hs
    subst hs
    exact absurd h (by decide)
  · intro h
    cases hse : s.isEmpty
    · rfl
    · exact absurd ((String.isEmpty_iff s).1 hse) h

/-- C9: `createReply` always creates a fresh top-level note — never a note
attached to the given discussion — whose body is the quote line
`"> In reply to discussion "` followed by the discussion id, a blank line and
the given body; the result does not depend on the given `noteId`. -/
theorem createReply_topLevel (params : CreateReplyParams) :
    createReply params =
      NoteRequest.topLevel params.iid
        ("> In reply to discussion " ++ params.discussionId ++ "\n\n" ++ params.body) ∧
    (∀ m : Int, createReply { params with noteId := m } = createReply params) ∧
    (∀ (did : String) (b : String), createReply params ≠ NoteRequest.discussionNote did b) := by
  refine ⟨?_, ?_, ?_⟩
  · cases hm : params.isMR <;> simp [createReply, hm]
  · intro m
    cases hm : params.isMR <;> simp [createReply, hm]
  · intro did b
    cases hm : params.isMR <;> simp [createReply, hm]

/-- C10: with a project id and token present but neither `CI_MERGE_REQUEST_IID`
nor `CI_ISSUE_IID` set, `parseGitLabContext` succeeds with `iid = 0` rather
than raising (the guard `!iid && iid !== 0` is false for `iid = 0`); the
`"No MR or Issue IID found"` error is reachable only when the IID environment
value parses to `NaN`. -/
theorem parseGitLabContext_iid (e : GitLabEnv) :
    (e.CI_MERGE_REQUEST_IID = none → e.CI_ISSUE_IID = none →
      (gitlabToken e).isEmpty = false → (jsOr e.CI_PROJECT_ID "").isEmpty = false →
      ∃ ctx, parseGitLabContext e = Except.ok ctx ∧ ctx.iid = some 0) ∧
    (parseGitLabContext e = Except.error
        "No MR or Issue IID found. Ensure CI_MERGE_REQUEST_IID or CI_ISSUE_IID is set." →
      parseIntJS (iidEnvValue e) = none) := by
  constructor
  · intro h1 h2 htok hpid
    have hiidv : iidEnvValue e = "0" := by
      rw [iidEnvValue, h1, h2]
      rfl
    have hiid : parseIntJS (iidEnvValue e) = some 0 := by
      rw [hiidv]
      decide
    rw [parseGitLabContext]
    rw [if_neg (by simp [htok])]
    rw [if_neg (by simp [hpid])]
    rw [if_neg (by simp [hiid, iidGuardFails])]
    exact ⟨_, rfl, hiid⟩
  · intro herr
    by_cases htok : (gitlabToken e).isEmpty = true
    · rw [parseGitLabContext, if_pos htok] at herr
      injection herr with hmsg
      exact absurd hmsg (by decide)
    · rw [parseGitLabContext, if_neg htok] at herr
      by_cases hpid : (jsOr e.CI_PROJECT_ID "").isEmpty = true
      · rw [if_pos hpid] at herr
        injection herr with hmsg
        exact absurd hmsg (by decide)
      · rw [if_neg hpid] at herr
        by_cases hguard : iidGuardFails (parseIntJS (iidEnvValue e)) = true
        · cases ho : parseIntJS (iidEnvValue e) with
          | none => rfl
          | some i =>
              rw [ho] at hguard
              rw [iidGuardFails] at hguard
              simp at hguard
        · rw [if_neg hguard] at herr
          exact absurd herr (by simp)

/-- C10 witness: a concrete environment with no IID variables parses with
`iid = 0`, and a concrete non-numeric `CI_ISSUE_IID` parses to `NaN`. -/
theorem parseGitLabContext_iid_witness :
    (∃ ctx, parseGitLabContext envNoIid = Except.ok ctx ∧ ctx.iid = some 0) ∧
    parseIntJS (iidEnvValue envBadIid) = none :=
  ⟨(parseGitLabContext_iid envNoIid).1 rfl rfl (by decide) (by decide),
    (parseGitLabContext_iid envBadIid).2 rfl⟩

/-- C6 counterexample: after publishing `"A"`, a poll observing `""` sees
content that differs (by exact equality) from the last-published content, yet
no publish occurs — the source additionally requires the content to be truthy
(`if (content && content !== lastContent)`), so the claim's rule "publishes
exactly when the content differs" is false. -/
theorem relay_truthiness_cex :
    (relayRun "" [some "A", some ""]).2 = ["A"] ∧
    (relayTick "A" (some "")).2 = none ∧
    ("" : String) ≠ "A" := by
  decide

/-- C6 (amended): a poll publishes exactly when the observed content is
non-empty and differs (by exact equality) from the last-published content, in
which case the content itself is published and recorded as last-published;
otherwise the state is unchanged; an unreadable channel is a no-op; and the
channel sequence `["", "A", "A", "B"]` produces exactly the publish events
`"A"` then `"B"`, in that order. -/
theorem relayTick_spec (last c : String) :
    (relayTick last (some c) = (c, some c) ↔ (c ≠ "" ∧ c ≠ last)) ∧
    (relayTick last (some c) = (c, some c) ∨ relayTick last (some c) = (last, none)) ∧
    relayTick last none = (last, none) ∧
    (relayRun "" [some "", some "A", some "A", some "B"]).2 = ["A", "B"] := by
  refine ⟨?_, ?_, rfl, by decide⟩
  · constructor
    · intro h
      by_cases hcond : (!c.isEmpty && c != last) = true
      · have := hcond
        simp only [Bool.and_eq_true, Bool.not_eq_true', bne_iff_ne] at this
        exact ⟨(isEmpty_false_iff c).1 this.1, this.2⟩
      · have hne : relayTick last (some c) = (last, none) := by
          simp [relayTick, hcond]
        rw [hne] at h
        exact absurd (congrArg Prod.snd h) (by simp)
    · rintro ⟨hne, hdiff⟩
      have hcond : (!c.isEmpty && c != last) = true := by
        simp [Bool.and_eq_true, Bool.not_eq_true', bne_iff_ne,
          (isEmpty_false_iff c).2 hne, hdiff]
      simp [relayTick, hcond]
  · by_cases hcond : (!c.isEmpty && c != last) = true
    · exact Or.inl (by simp [relayTick, hcond])
    · exact Or.inr (by simp [relayTick, hcond])

/-- C6 witness: the publish rule applied at a concrete changed content. -/
theorem relayTick_spec_witness :
    relayTick "" (some "A") = ("A", some "A") ∧
    (relayRun "" [some "", some "A", some "A", some "B"]).2 = ["A", "B"] :=
  ⟨(relayTick_spec "" "A").1.mpr (by decide), (relayTick_spec "" "A").2.2.2⟩

/-- C7: a schedule admitted by the code's shutdown path — the watcher sends an
edit, the controller kills the watcher and writes the final status `"done"`,
and only then does the host apply the watcher's earlier edit — ends with the
tracking note holding the relay value `"X"`, not the controller's final
status: `kill` only signals the watcher, it does not confirm it stopped, so
the final write is not guaranteed to be the last write. -/
theorem relay_final_write_race :
    sysRun sysInit shutdownTrace =
      some { note := "X", channel := "X", lastContent := "X", inFlight := none,
             watcherAlive := false, finalWritten := true } ∧
    ("X" : String) ≠ "done" := by
  decide
